import Mathlib

/-!
# Verification of the portfolio front-end scripts

Shallow embedding of the behavioral logic of the repository's TypeScript
sources (`src/script.ts` and the compiled/alternate variants): the contact
form validation and submission flow (`FormManager`), the theme toggle
(`ThemeManager`, both the string-typed primary variant and the boolean
variant), the application composition root (`App`), the smooth-scroll click
handler (`SmoothScrollManager`), and the project gallery renderer
(`ProjectManager`).

Browser collaborators (`localStorage`, `document.querySelector`, the form
fields, `classList`) are modelled as explicit values: storage is an
`Option String`, the observable theme state is a small structure, and the
effects of one submit-event handler run are collected in a record.
-/

namespace Portfolio

/-! ## Email validation (`FormManager.emailRegex`)

The source tests the email against the regular expression
`^[^\s@]+@[^\s@]+\.[^\s@]+$`.  Since the character class `[^\s@]` excludes
`'@'`, a matching string contains exactly one `'@'`, so the match can be
decided by splitting at the first `'@'` and checking the two sides.  `\s`
is modelled by `Char.isWhitespace`. -/

/-- A character matched by the regex class `[^\s@]`: not whitespace and not `'@'`. -/
def atomChar (c : Char) : Bool :=
  !c.isWhitespace && c != '@'

/-- Split a character list at its first `'@'`: returns the characters before
the first `'@'` and those after it, or `none` when no `'@'` occurs. -/
def splitAtFirstAt : List Char → Option (List Char × List Char)
  | [] => none
  | c :: rest =>
    if c = '@' then some ([], rest)
    else
      match splitAtFirstAt rest with
      | some (l, r) => some (c :: l, r)
      | none => none

/-- Does the list contain a `'.'` that is not its last element? -/
def dotNotLast : List Char → Bool
  | [] => false
  | [_] => false
  | c :: rest => c = '.' || dotNotLast rest

/-- Does the list contain a `'.'` at an interior position (neither first nor
last element)?  This is exactly when it splits as `x ++ '.' :: y` with both
`x` and `y` nonempty. -/
def hasInteriorDot : List Char → Bool
  | [] => false
  | _ :: rest => dotNotLast rest

/-- Decision procedure for `emailRegex.test`: the string matches
`^[^\s@]+@[^\s@]+\.[^\s@]+$` iff it splits at its first `'@'` into a
nonempty all-`atomChar` local part and a domain part that is all-`atomChar`
and has the shape `x ++ '.' :: y` with `x, y` nonempty (equivalently, a
`'.'` at an interior position, since `'.'` itself is an `atomChar`). -/
def emailTest (s : String) : Bool :=
  match splitAtFirstAt s.toList with
  | some (l, d) => !l.isEmpty && l.all atomChar && d.all atomChar && hasInteriorDot d
  | none => false

/-- The regex pattern `^[^\s@]+@[^\s@]+\.[^\s@]+$` transcribed literally:
a nonempty run of `[^\s@]`, then `'@'`, then a nonempty run of `[^\s@]`,
then `'.'`, then a nonempty run of `[^\s@]`, covering the whole string. -/
def emailRegexAccepts (s : String) : Prop :=
  ∃ l x y : List Char,
    s.toList = l ++ '@' :: (x ++ '.' :: y) ∧
    l ≠ [] ∧ x ≠ [] ∧ y ≠ [] ∧
    (∀ c ∈ l, atomChar c = true) ∧
    (∀ c ∈ x, atomChar c = true) ∧
    (∀ c ∈ y, atomChar c = true)

/-- The claimed characterisation of the email check: exactly one `'@'`,
at least one `'.'` somewhere after that `'@'`, and no whitespace anywhere. -/
def emailClaimShaped (s : String) : Bool :=
  let cs := s.toList
  (cs.count '@' == 1) &&
  (match splitAtFirstAt cs with
   | some (_, d) => d.contains '.'
   | none => false) &&
  cs.all (fun c => !c.isWhitespace)

/-! ## Contact form (`FormManager`)

`handleSubmit` calls `e.preventDefault()`, extracts the trimmed field
values (`getFormData`), validates them (`validateForm`, which calls
`showError` with a specific message and returns `false` on the first
failing check), and if validation passed awaits `submitForm`, then shows
the success message and resets the form; a rejection of the awaited call
lands in the `catch` block, which shows the error's `.message` when the
thrown value is an `Error` and a generic message otherwise, without
resetting the form.

The handler's observable effects for one submit event are collected in
`SubmitEffect`.  The awaited submission is a parameter
(`submit : ContactFormData → Except JSValue Unit`) in `handleSubmitWith`;
the actual `submitForm` of the source only awaits a `setTimeout` promise
(which always resolves) and calls `console.log`, so it is embedded as the
function that always returns `.ok ()`. -/

/-- The record built by `getFormData`: the three trimmed field values. -/
structure ContactFormData where
  name : String
  email : String
  message : String
deriving DecidableEq

/-- The raw values of the three form fields at submit time. -/
structure FormFields where
  nameValue : String
  emailValue : String
  messageValue : String
deriving DecidableEq

/-- JavaScript `String.prototype.trim`: drop leading and trailing
whitespace (modelled by `Char.isWhitespace`). -/
def jsTrim (s : String) : String :=
  ⟨((s.toList.dropWhile Char.isWhitespace).reverse.dropWhile Char.isWhitespace).reverse⟩

/-- `getFormData`: trim each field value. -/
def getFormData (f : FormFields) : ContactFormData :=
  ⟨jsTrim f.nameValue, jsTrim f.emailValue, jsTrim f.messageValue⟩

/-- `validateForm`, with the `showError` side effect reified as the returned
message: `some msg` when a check fails (short-circuiting in source order
name, email, message), `none` when all checks pass.  `!data.name` on a
string is falsity of the empty string, i.e. `data.name = ""`. -/
def validateForm (data : ContactFormData) : Option String :=
  if data.name = "" then some "Please enter your name"
  else if !emailTest data.email then some "Please enter a valid email"
  else if data.message = "" then some "Please enter a message"
  else none

/-- A JavaScript value thrown by the awaited submission: either an `Error`
(with its `.message`) or any non-`Error` value. -/
inductive JSValue where
  | error (message : String)
  | nonError
deriving DecidableEq

/-- The message `handleSubmit`'s catch block passes to `showError`:
`error instanceof Error ? error.message : 'An unknown error occurred'`. -/
def caughtMessage : JSValue → String
  | .error m => m
  | .nonError => "An unknown error occurred"

/-- A user notification: `showSuccess msg` (`alert(msg)`) or
`showError msg` (`alert("Error: " ++ msg)`); the payload is the message
argument. -/
inductive Notice where
  | success (msg : String)
  | error (msg : String)
deriving DecidableEq

/-- Observable effects of one run of `handleSubmit` on a submit event. -/
structure SubmitEffect where
  defaultPrevented : Bool
  notice : Option Notice
  submitAttempted : Bool
  fieldsAfter : FormFields
deriving DecidableEq

/-- `handleSubmit`, parametric in the awaited submission's outcome.
`e.preventDefault()` always runs first; a validation failure shows its
message and returns before any submission; otherwise the submission is
awaited: on resolution the success notice is shown and the form is reset
(all fields cleared), on rejection the catch block shows the caught
message and the fields are left as they were. -/
def handleSubmitWith (fields : FormFields)
    (submit : ContactFormData → Except JSValue Unit) : SubmitEffect :=
  let data := getFormData fields
  match validateForm data with
  | some msg => ⟨true, some (.error msg), false, fields⟩
  | none =>
    match submit data with
    | .ok _ => ⟨true, some (.success "Message sent successfully!"), true, ⟨"", "", ""⟩⟩
    | .error v => ⟨true, some (.error (caughtMessage v)), true, fields⟩

/-- `submitForm`: awaits `new Promise(resolve => setTimeout(resolve, 1000))`
(a promise that always resolves) and then `console.log`s the data; it never
throws or rejects, so its outcome is always `.ok ()`. -/
def submitForm : ContactFormData → Except JSValue Unit :=
  fun _ => .ok ()

/-- `handleSubmit` as shipped: `handleSubmitWith` applied to the actual
`submitForm`. -/
def handleSubmit (fields : FormFields) : SubmitEffect :=
  handleSubmitWith fields submitForm

/-! ## Theme manager (`ThemeManager`)

The observable theme state is the presence of the `dark-theme` class on
`document.body`, the icon glyph class on the toggle's `<i>` element, and
the value stored under the fixed key `'theme'` in `localStorage`
(`none` models an absent key).

Primary variant (`script.ts` lines 54–88): `currentTheme` is a string,
initialised to `(localStorage.getItem('theme') as Theme) || 'light'` —
`null` and `""` are falsy, every other stored string is adopted verbatim.
`setTheme` branches on `theme === 'dark'` and stores the `theme` argument
verbatim.  Boolean variant (lines 302–336 and the compiled file):
`isDark = localStorage.getItem('theme') === 'dark'` and `setTheme` stores
`isDark ? 'dark' : 'light'`. -/

/-- Observable theme state: `dark-theme` class on the body, icon glyph on
the toggle's `<i>`, and the `localStorage` entry under key `'theme'`. -/
structure ThemeObs where
  darkClass : Bool
  icon : String
  stored : Option String
deriving DecidableEq

/-- `classList.replace(old, new)`: replaces `old` by `new` when present,
otherwise leaves the class list unchanged (modelled on the single glyph
class of the icon element). -/
def classListReplace (cur old new : String) : String :=
  if cur = old then new else cur

/-- `ThemeManager.setTheme(theme)` of the primary variant: on `'dark'`, add
the `dark-theme` class and swap `fa-moon → fa-sun`; otherwise remove the
class and swap `fa-sun → fa-moon`; in both cases persist the `theme`
argument verbatim under the storage key. -/
def setTheme (theme : String) (st : ThemeObs) : ThemeObs :=
  if theme = "dark" then
    ⟨true, classListReplace st.icon "fa-moon" "fa-sun", some theme⟩
  else
    ⟨false, classListReplace st.icon "fa-sun" "fa-moon", some theme⟩

/-- The initial `currentTheme` of the primary variant:
`(localStorage.getItem('theme') as Theme) || 'light'`.  `getItem` yields
`null` (absent key) or the stored string; `null` and `""` are falsy and
fall back to `'light'`; any other stored string is adopted unchecked. -/
def initialTheme : Option String → String
  | none => "light"
  | some s => if s = "" then "light" else s

/-- `ThemeManager` construction (primary variant): read the initial theme
from storage, then `initialize` calls `setTheme` on it.  Returns the
in-memory `currentTheme` together with the observable state. -/
def themeManagerInit (darkClass₀ : Bool) (icon₀ : String)
    (stored₀ : Option String) : String × ThemeObs :=
  let t := initialTheme stored₀
  (t, setTheme t ⟨darkClass₀, icon₀, stored₀⟩)

/-- `handleThemeToggle`: flip `currentTheme`
(`currentTheme === 'light' ? 'dark' : 'light'`) and apply `setTheme`. -/
def handleThemeToggle (s : String × ThemeObs) : String × ThemeObs :=
  let t := if s.1 = "light" then "dark" else "light"
  (t, setTheme t s.2)

/-- Initial `isDark` of the boolean variant:
`localStorage.getItem('theme') === 'dark'`. -/
def initialIsDark (stored : Option String) : Bool :=
  stored = some "dark"

/-- `setTheme(isDark)` of the boolean variant: always persists the literal
`'dark'` or `'light'`. -/
def setThemeB (isDark : Bool) (st : ThemeObs) : ThemeObs :=
  if isDark then
    ⟨true, classListReplace st.icon "fa-moon" "fa-sun", some "dark"⟩
  else
    ⟨false, classListReplace st.icon "fa-sun" "fa-moon", some "light"⟩

/-- `ThemeManager` construction, boolean variant. -/
def themeManagerInitB (darkClass₀ : Bool) (icon₀ : String)
    (stored₀ : Option String) : Bool × ThemeObs :=
  let d := initialIsDark stored₀
  (d, setThemeB d ⟨darkClass₀, icon₀, stored₀⟩)

/-! ## Application composition root (`App`)

Each manager constructor either succeeds or throws (e.g. an
`Element ... not found` error from `DOMSelectors`/`getElementById` checks);
it is modelled as an `Except String Unit`.  The primary `App.initialize`
wraps the construction sequence in `try { ... } catch (error) {
console.error(...) }`; the variant `App` constructor (second script)
runs the same sequence with no `try`/`catch`, so a thrown error escapes
its constructor. -/

/-- Outcome of one manager's constructor: success, or a thrown error. -/
abbrev ManagerInit := Except String Unit

/-- Run the manager constructors in order, stopping at the first throw:
returns how many managers were constructed, and the thrown error if any
(the constructors after the first throw are never attempted). -/
def constructManagers : List ManagerInit → Nat × Option String
  | [] => (0, none)
  | m :: ms =>
    match m with
    | .ok _ => ((constructManagers ms).1 + 1, (constructManagers ms).2)
    | .error e => (0, some e)

/-- Result of the primary `App.initialize`: either all managers were
constructed, or the first thrown error was caught and logged via
`console.error`.  The type has no propagated-error case, mirroring the
catch-all `catch (error)`. -/
inductive AppInitResult where
  | initialized (constructed : Nat)
  | loggedFailure (err : String)
deriving DecidableEq

/-- Primary `App.initialize`: run the constructors inside `try`/`catch`;
a thrown error is caught and logged, never rethrown. -/
def appInitialize (ms : List ManagerInit) : AppInitResult :=
  match constructManagers ms with
  | (n, none) => .initialized n
  | (_, some e) => .loggedFailure e

/-- Variant `App` constructor (second script): the same construction
sequence with no `try`/`catch`, so the first thrown error escapes the
constructor as an error. -/
def appConstructNoCatch (ms : List ManagerInit) : Except String Nat :=
  match constructManagers ms with
  | (n, none) => .ok n
  | (_, some e) => .error e

/-! ## Smooth scroll (`SmoothScrollManager.handleClick`)

The handler is bound to every `a[href^="#"]`.  It calls
`e.preventDefault()`, reads `anchor.getAttribute('href')`, returns when
that is `null` or `""` (falsy), and otherwise passes the href to
`document.querySelector`.  Modelled from the platform:
`document.querySelector` throws a `SyntaxError` when its argument is not a
valid CSS selector; a fragment selector `'#' ++ id` is valid when `id` is a
nonempty CSS identifier (here: alphanumeric, `'-'` or `'_'` characters, not
starting with a digit), so the bare selector `"#"` is invalid and throws.
When the selector is valid, `querySelector` returns the matching element or
`null`, and the handler scrolls only when an element was found. -/

/-- A character allowed in the (simplified) CSS identifier of a fragment
selector. -/
def cssIdentChar (c : Char) : Bool :=
  c.isAlphanum || c = '-' || c = '_'

/-- Is the string a valid CSS fragment selector `'#' ++ id` with `id` a
nonempty identifier?  In particular `"#"` is not valid. -/
def validFragmentSelector (s : String) : Bool :=
  match s.toList with
  | '#' :: rest => !rest.isEmpty && rest.all cssIdentChar && !(rest.headD 'a').isDigit
  | _ => false

/-- What one click-handler run did after `preventDefault`. -/
inductive ScrollOutcome where
  | noScroll
  | scrolled (selector : String)
  | raised
deriving DecidableEq

/-- Observable result of one `SmoothScrollManager.handleClick` run. -/
structure ClickResult where
  defaultPrevented : Bool
  outcome : ScrollOutcome
deriving DecidableEq

/-- `handleClick`, with the document abstracted as the predicate
`docHasElem : selector ↦ does some element match`.  `preventDefault` runs
first; a `null` or empty href returns silently; an invalid selector makes
`querySelector` throw (`raised`); otherwise the element is scrolled into
view when found and nothing happens when not. -/
def handleClick (docHasElem : String → Bool) (href : Option String) : ClickResult :=
  match href with
  | none => ⟨true, .noScroll⟩
  | some targetId =>
    if targetId = "" then ⟨true, .noScroll⟩
    else if !validFragmentSelector targetId then ⟨true, .raised⟩
    else if docHasElem targetId then ⟨true, .scrolled targetId⟩
    else ⟨true, .noScroll⟩

/-! ## Project gallery (`ProjectManager`)

`renderProjects` assigns
`this.projects.map(project => this.createProjectCard(project)).join('')`
to the container's `innerHTML`, discarding whatever the container held
before.  `createProjectCard` is a template literal interleaving fixed
chunks with `project.id`, `project.imageUrl`, `project.title` (twice) and
`project.description`. -/

/-- A project record (interface `ProjectCard`). -/
structure ProjectCard where
  id : Nat
  title : String
  description : String
  imageUrl : String
deriving DecidableEq

/-- `createProjectCard`: the template literal of the source, with the
interpolated expressions spliced between its fixed chunks. -/
def createProjectCard (project : ProjectCard) : String :=
  "\n            <div class=\"project-card\" data-project-id=\"" ++ toString project.id ++
  "\">\n                <img src=\"" ++ project.imageUrl ++
  "\" alt=\"" ++ project.title ++
  "\">\n                <h3>" ++ project.title ++
  "</h3>\n                <p>" ++ project.description ++
  "</p>\n            </div>\n        "

/-- The list of card fragments produced by `renderProjects` before joining. -/
def projectFragments (projects : List ProjectCard) : List String :=
  projects.map createProjectCard

/-- `renderProjects`: the container's `innerHTML` after rendering — the
fragments joined with the empty separator; the previous content is
discarded by the assignment. -/
def renderProjects (prevInnerHTML : String) (projects : List ProjectCard) : String :=
  let _ := prevInnerHTML
  String.join (projectFragments projects)

/-- The project list of the primary script (one record). -/
def projects_v1 : List ProjectCard :=
  [⟨1, "Goal 1", "Making this website", "https://via.placeholder.com/300x200"⟩]

/-- The project list of the three-record variant. -/
def projects_v2 : List ProjectCard :=
  [⟨1, "Goal 1", "Making this website", "https://via.placeholder.com/300x200"⟩,
   ⟨2, "Goal 2", "Learning TypeScript", "https://via.placeholder.com/300x200"⟩,
   ⟨3, "Goal 3", "Building a portfolio", "https://via.placeholder.com/300x200"⟩]

/-- The invariant relating the `ThemeManager`'s in-memory state to the
observable state: the persisted value equals the in-memory theme, and the
`dark-theme` class is present exactly when that theme is `"dark"`. -/
def themeInv (s : String × ThemeObs) : Prop :=
  s.2.stored = some s.1 ∧ (s.2.darkClass = true ↔ s.1 = "dark")

/-! ## Supporting lemmas -/

theorem splitAtFirstAt_eq_some :
    ∀ {cs l d : List Char}, splitAtFirstAt cs = some (l, d) →
      cs = l ++ '@' :: d ∧ '@' ∉ l := by
  intro cs
  induction cs with
  | nil => intro l d h; simp [splitAtFirstAt] at h
  | cons c rest ih =>
    intro l d h
    by_cases hc : c = '@'
    · subst hc
      simp [splitAtFirstAt] at h
      obtain ⟨rfl, rfl⟩ := h
      simp
    · simp only [splitAtFirstAt, if_neg hc] at h
      cases hsp : splitAtFirstAt rest with
      | none => rw [hsp] at h; simp at h
      | some p =>
        obtain ⟨l', r⟩ := p
        rw [hsp] at h
        simp at h
        obtain ⟨rfl, rfl⟩ := h
        obtain ⟨hrest, hnl⟩ := ih hsp
        refine ⟨by simp [hrest], ?_⟩
        intro hm
        rcases List.mem_cons.mp hm with h1 | h2
        · exact hc h1.symm
        · exact hnl h2

theorem splitAtFirstAt_append :
    ∀ (l d : List Char), '@' ∉ l → splitAtFirstAt (l ++ '@' :: d) = some (l, d) := by
  intro l
  induction l with
  | nil => intro d _; simp [splitAtFirstAt]
  | cons c l ih =>
    intro d hl
    have hc : ¬ c = '@' := fun h => hl (h ▸ List.mem_cons_self c l)
    have hl' : '@' ∉ l := fun h => hl (List.mem_cons_of_mem c h)
    simp [splitAtFirstAt, hc, ih d hl']

theorem dotNotLast_iff (r : List Char) :
    dotNotLast r = true ↔ ∃ x y, r = x ++ '.' :: y ∧ y ≠ [] := by
  induction r with
  | nil =>
    simp only [dotNotLast]
    constructor
    · intro h; exact absurd h (by simp)
    · rintro ⟨x, y, hxy, -⟩; cases x <;> simp at hxy
  | cons c r ih =>
    cases r with
    | nil =>
      constructor
      · intro h; simp [dotNotLast] at h
      · rintro ⟨x, y, hxy, hy⟩
        cases x with
        | nil => simp at hxy; exact absurd hxy.2 hy
        | cons a x => simp at hxy
    | cons c' r' =>
      have hdef : dotNotLast (c :: c' :: r') = (decide (c = '.') || dotNotLast (c' :: r')) := rfl
      rw [hdef]
      constructor
      · intro h
        rcases Bool.or_eq_true_iff.mp h with h1 | h2
        · exact ⟨[], c' :: r', by simp [decide_eq_true_eq.mp h1], by simp⟩
        · obtain ⟨x, y, hxy, hy⟩ := ih.mp h2
          exact ⟨c :: x, y, by simp [hxy], hy⟩
      · rintro ⟨x, y, hxy, hy⟩
        cases x with
        | nil =>
          simp at hxy
          simp [hxy.1]
        | cons a x =>
          simp at hxy
          have : dotNotLast (c' :: r') = true := ih.mpr ⟨x, y, hxy.2, hy⟩
          simp [this]

theorem hasInteriorDot_iff (d : List Char) :
    hasInteriorDot d = true ↔ ∃ x y, d = x ++ '.' :: y ∧ x ≠ [] ∧ y ≠ [] := by
  cases d with
  | nil =>
    simp only [hasInteriorDot]
    constructor
    · intro h; exact absurd h (by simp)
    · rintro ⟨x, y, hxy, -, -⟩; cases x <;> simp at hxy
  | cons c rest =>
    simp only [hasInteriorDot]
    rw [dotNotLast_iff]
    constructor
    · rintro ⟨x, y, hxy, hy⟩
      exact ⟨c :: x, y, by simp [hxy], by simp, hy⟩
    · rintro ⟨x, y, hxy, hx, hy⟩
      cases x with
      | nil => exact absurd rfl hx
      | cons a x =>
        simp at hxy
        exact ⟨x, y, hxy.2, hy⟩

theorem atomChar_ne_at {c : Char} (h : atomChar c = true) : c ≠ '@' := by
  intro hc
  subst hc
  simp [atomChar] at h

/-- String append is associative (used to rearrange the card fragments). -/
theorem strAppendAssoc : ∀ a b c : String, a ++ b ++ c = a ++ (b ++ c)
  | ⟨a⟩, ⟨b⟩, ⟨c⟩ => by
    show String.mk (a ++ b ++ c) = String.mk (a ++ (b ++ c))
    rw [List.append_assoc]

theorem themeInv_setTheme (t : String) (obs : ThemeObs) : themeInv (t, setTheme t obs) := by
  unfold themeInv setTheme
  by_cases h : t = "dark" <;> simp [h]

/-! ## Claim theorems -/

/-- C1: On a submit event, validation of the trimmed fields runs in the
fixed order name, email, message, short-circuiting at the first failing
check with its specific message, and the submission step is never reached
on failure.  In particular a name that trims to empty yields the
name-validation failure and no submission attempt, regardless of the email
and message values and of the submission operation. -/
theorem c1_validation_order (f : FormFields)
    (submit : ContactFormData → Except JSValue Unit) :
    (jsTrim f.nameValue = "" →
      handleSubmitWith f submit =
        ⟨true, some (.error "Please enter your name"), false, f⟩) ∧
    (jsTrim f.nameValue ≠ "" → emailTest (jsTrim f.emailValue) = false →
      handleSubmitWith f submit =
        ⟨true, some (.error "Please enter a valid email"), false, f⟩) ∧
    (jsTrim f.nameValue ≠ "" → emailTest (jsTrim f.emailValue) = true →
      jsTrim f.messageValue = "" →
      handleSubmitWith f submit =
        ⟨true, some (.error "Please enter a message"), false, f⟩) := by
  refine ⟨?_, ?_, ?_⟩
  · intro h1
    simp [handleSubmitWith, getFormData, validateForm, h1]
  · intro h1 h2
    simp [handleSubmitWith, getFormData, validateForm, h1, h2]
  · intro h1 h2 h3
    simp [handleSubmitWith, getFormData, validateForm, h1, h2, h3]

/-- C1 witness: the spec's concrete scenario `name=""`, `email="a@b.com"`,
`message="hi"` yields the name-validation failure and no submission. -/
theorem c1_validation_order_witness :
    handleSubmitWith ⟨"", "a@b.com", "hi"⟩ submitForm =
      ⟨true, some (.error "Please enter your name"), false, ⟨"", "a@b.com", "hi"⟩⟩ :=
  (c1_validation_order ⟨"", "a@b.com", "hi"⟩ submitForm).1 (by decide)

/-- C2 counterexample: the claimed characterisation (exactly one `'@'`, a
`'.'` somewhere after it, no whitespace) holds of `"a@b."`, yet the
regex-based check rejects it: the trailing `'.'` is not followed by a
`[^\s@]` character. -/
theorem c2_email_counterexample :
    emailTest "a@b." = false ∧ emailClaimShaped "a@b." = true := by
  decide

/-- C2 (amended): the email check accepts a string exactly when it has the
form `local ++ "@" ++ x ++ "." ++ y` where `local`, `x` and `y` are
nonempty runs of characters that are neither whitespace nor `'@'` — i.e.
exactly one `'@'` with a nonempty local part before it, no whitespace, and
after the `'@'` a `'.'` that is neither immediately after the `'@'` nor the
last character. -/
theorem c2_email_characterization (s : String) :
    emailTest s = true ↔ emailRegexAccepts s := by
  unfold emailTest emailRegexAccepts
  cases hsp : splitAtFirstAt s.toList with
  | none =>
    simp only [Bool.false_eq_true, false_iff]
    rintro ⟨l, x, y, hcs, -, -, -, hal, -, -⟩
    have hlat : '@' ∉ l := fun hm => atomChar_ne_at (hal _ hm) rfl
    rw [hcs, splitAtFirstAt_append l (x ++ '.' :: y) hlat] at hsp
    exact Option.noConfusion hsp
  | some p =>
    obtain ⟨l, d⟩ := p
    obtain ⟨hcs, hnl⟩ := splitAtFirstAt_eq_some hsp
    constructor
    · intro h
      simp only [Bool.and_eq_true] at h
      obtain ⟨⟨⟨hne, hall⟩, hald⟩, hdot⟩ := h
      obtain ⟨x, y, hd, hx, hy⟩ := (hasInteriorDot_iff d).mp hdot
      refine ⟨l, x, y, by rw [hcs, hd], ?_, hx, hy, ?_, ?_, ?_⟩
      · intro hl
        rw [hl] at hne
        simp at hne
      · exact fun c hc => List.all_eq_true.mp hall c hc
      · intro c hc
        exact List.all_eq_true.mp hald c (by rw [hd]; exact List.mem_append_left _ hc)
      · intro c hc
        refine List.all_eq_true.mp hald c ?_
        rw [hd]
        exact List.mem_append_right _ (List.mem_cons_of_mem _ hc)
    · rintro ⟨l', x, y, hcs', hl', hx, hy, hal, hax, hay⟩
      have hlat : '@' ∉ l' := fun hm => atomChar_ne_at (hal _ hm) rfl
      have h1 : splitAtFirstAt s.toList = some (l', x ++ '.' :: y) := by
        rw [hcs']
        exact splitAtFirstAt_append l' (x ++ '.' :: y) hlat
      rw [hsp] at h1
      injection h1 with h1
      injection h1 with hle hde
      subst hle
      subst hde
      simp only [Bool.and_eq_true]
      refine ⟨⟨⟨?_, ?_⟩, ?_⟩, ?_⟩
      · simpa using hl'
      · exact List.all_eq_true.mpr hal
      · refine List.all_eq_true.mpr ?_
        intro c hc
        rcases List.mem_append.mp hc with h | h
        · exact hax c h
        · rcases List.mem_cons.mp h with h | h
          · subst h; decide
          · exact hay c h
      · exact (hasInteriorDot_iff _).mpr ⟨x, y, rfl, hx, hy⟩

/-- C2 witness: `"a@b.com"` is accepted and admits the structural
decomposition; `"not-an-email"` is rejected. -/
theorem c2_email_characterization_witness :
    emailRegexAccepts "a@b.com" ∧ emailTest "not-an-email" = false :=
  ⟨(c2_email_characterization "a@b.com").mp (by decide), by decide⟩

/-- C3: when validation passes, a resolving submission shows the success
notification and resets all fields to empty, while a rejecting submission
shows an error notification carrying the thrown `Error`'s message (or the
generic message for a non-`Error` value) and leaves the fields as they
were. -/
theorem c3_submission_outcome (f : FormFields)
    (submit : ContactFormData → Except JSValue Unit)
    (hv : validateForm (getFormData f) = none) :
    (submit (getFormData f) = .ok () →
      handleSubmitWith f submit =
        ⟨true, some (.success "Message sent successfully!"), true, ⟨"", "", ""⟩⟩) ∧
    (∀ v, submit (getFormData f) = .error v →
      handleSubmitWith f submit =
        ⟨true, some (.error (caughtMessage v)), true, f⟩) ∧
    (∀ m, caughtMessage (.error m) = m) ∧
    caughtMessage .nonError = "An unknown error occurred" := by
  refine ⟨?_, ?_, fun _ => rfl, rfl⟩
  · intro hs
    simp [handleSubmitWith, hv, hs]
  · intro v hs
    simp [handleSubmitWith, hv, hs]

/-- C3 witness: with valid fields, a submission rejecting with
`Error("boom")` shows the error notice `"boom"` and keeps the fields. -/
theorem c3_submission_outcome_witness :
    handleSubmitWith ⟨"Jo", "a@b.com", "hi"⟩ (fun _ => .error (.error "boom")) =
      ⟨true, some (.error "boom"), true, ⟨"Jo", "a@b.com", "hi"⟩⟩ :=
  (c3_submission_outcome ⟨"Jo", "a@b.com", "hi"⟩ (fun _ => .error (.error "boom"))
    (by decide)).2.1 (.error "boom") rfl

/-- C4: with the unrecognized stored value `"blue"`, the primary
`ThemeManager` does not default to light: the unchecked cast makes
`currentTheme = "blue"`, and construction persists `"blue"` verbatim — the
stored value is then neither `"light"` nor `"dark"`.  The boolean variant
realises the documented behaviour: `"blue"` yields the light state and
`"light"` is persisted. -/
theorem c4_unrecognized_stored_value :
    themeManagerInit false "fa-moon" (some "blue") =
      ("blue", ⟨false, "fa-moon", some "blue"⟩) ∧
    initialTheme (some "blue") = "blue" ∧
    initialTheme none = "light" ∧
    initialTheme (some "") = "light" ∧
    initialTheme (some "dark") = "dark" ∧
    themeManagerInitB false "fa-moon" (some "blue") =
      (false, ⟨false, "fa-moon", some "light"⟩) := by
  decide

/-- C5 counterexample: the variant `App` (second script) has no
`try`/`catch`, so when the second manager's constructor throws
(`.hamburger` missing), the error escapes the `App` constructor instead of
being caught and logged. -/
theorem c5_counterexample :
    appConstructNoCatch [.ok (), .error "Element with selector .hamburger not found"] =
      .error "Element with selector .hamburger not found" := rfl

/-- C5 (amended): when a manager constructor throws, the managers before it
were constructed and the ones after it are never attempted in both `App`s;
the primary `App.initialize` catches the error and logs it, never
rethrowing, while the variant `App` constructor lets the error propagate
out. -/
theorem c5_init_failure_isolated (pre : List ManagerInit) (e : String)
    (post : List ManagerInit) (hpre : ∀ m ∈ pre, m = .ok ()) :
    constructManagers (pre ++ .error e :: post) = (pre.length, some e) ∧
    appInitialize (pre ++ .error e :: post) = .loggedFailure e ∧
    appConstructNoCatch (pre ++ .error e :: post) = .error e := by
  have hc : constructManagers (pre ++ .error e :: post) = (pre.length, some e) := by
    induction pre with
    | nil => simp [constructManagers]
    | cons m pre ih =>
      have hm : m = .ok () := hpre m (List.mem_cons_self m pre)
      have ih' := ih fun m' hm' => hpre m' (List.mem_cons_of_mem m hm')
      subst hm
      simp [constructManagers, ih']
  refine ⟨hc, ?_, ?_⟩
  · unfold appInitialize
    rw [hc]
  · unfold appConstructNoCatch
    rw [hc]

/-- C5 witness: with the first manager succeeding and the second throwing,
exactly one manager is constructed, the primary `App` logs the failure,
and the variant `App` propagates it. -/
theorem c5_init_failure_isolated_witness :
    constructManagers [.ok (), .error "Contact form not found", .ok ()] =
      (1, some "Contact form not found") ∧
    appInitialize [.ok (), .error "Contact form not found", .ok ()] =
      .loggedFailure "Contact form not found" ∧
    appConstructNoCatch [.ok (), .error "Contact form not found", .ok ()] =
      .error "Contact form not found" :=
  c5_init_failure_isolated [.ok ()] "Contact form not found" [.ok ()]
    (by intro m hm; simpa using hm)

/-- C6 counterexample: for an anchor whose href is exactly `"#"`, the
handler does raise: `"#"` is truthy, so it reaches
`document.querySelector("#")`, which throws on the invalid selector —
contradicting the claim that this case is a silent no-op. -/
theorem c6_counterexample :
    handleClick (fun _ => false) (some "#") = ⟨true, .raised⟩ ∧
    validFragmentSelector "#" = false := by
  decide

/-- C6 (amended): the default jump is always suppressed; when the href is a
valid fragment selector that matches no element the handler silently does
nothing; but an href of exactly `"#"` passes the falsiness check and makes
`querySelector` throw. -/
theorem c6_anchor_click (docHasElem : String → Bool) (href : Option String) :
    (handleClick docHasElem href).defaultPrevented = true ∧
    (∀ t, href = some t → validFragmentSelector t = true → docHasElem t = false →
      handleClick docHasElem href = ⟨true, .noScroll⟩) ∧
    (href = some "#" → handleClick docHasElem href = ⟨true, .raised⟩) := by
  refine ⟨?_, ?_, ?_⟩
  · cases href with
    | none => rfl
    | some t =>
      simp only [handleClick]
      split_ifs <;> rfl
  · rintro t rfl hv hd
    have ht : ¬ t = "" := by
      intro h
      rw [h] at hv
      exact absurd hv (by decide)
    simp [handleClick, ht, hv, hd]
  · rintro rfl
    have h1 : ¬ ("#" : String) = "" := by decide
    have h2 : (!validFragmentSelector "#") = true := by decide
    simp [handleClick, h1, h2]

/-- C6 witness: a fragment matching no element is a silent no-op with the
default prevented. -/
theorem c6_anchor_click_witness :
    handleClick (fun _ => false) (some "#missing") = ⟨true, .noScroll⟩ :=
  (c6_anchor_click (fun _ => false) (some "#missing")).2.1 "#missing" rfl
    (by decide) rfl

/-- C7: from either theme state (including the observable state produced by
`setTheme` at construction or after any toggle), toggling twice restores
the dark-class, the icon glyph and the persisted value. -/
theorem c7_toggle_involution (t : String) (obs : ThemeObs)
    (h : t = "light" ∨ t = "dark") :
    handleThemeToggle (handleThemeToggle (t, setTheme t obs)) = (t, setTheme t obs) := by
  rcases h with rfl | rfl <;>
  · simp only [handleThemeToggle, setTheme, classListReplace]
    by_cases h1 : obs.icon = "fa-sun" <;> by_cases h2 : obs.icon = "fa-moon" <;>
      simp [h1, h2]

/-- C7 witness: starting light with the moon glyph, two toggles restore the
exact observable state. -/
theorem c7_toggle_involution_witness :
    handleThemeToggle (handleThemeToggle ("light", setTheme "light" ⟨false, "fa-moon", none⟩)) =
      ("light", setTheme "light" ⟨false, "fa-moon", none⟩) :=
  c7_toggle_involution "light" ⟨false, "fa-moon", none⟩ (Or.inl rfl)

/-- The card fragment splits around the `data-project-id` attribute
carrying the record's id. -/
theorem createProjectCard_attr (p : ProjectCard) :
    createProjectCard p =
      "\n            <div class=\"project-card\" " ++
      ("data-project-id=\"" ++ toString p.id ++ "\"") ++
      (">\n                <img src=\"" ++ p.imageUrl ++
       "\" alt=\"" ++ p.title ++
       "\">\n                <h3>" ++ p.title ++
       "</h3>\n                <p>" ++ p.description ++
       "</p>\n            </div>\n        ") := by
  have h0 : ("\n            <div class=\"project-card\" data-project-id=\"" : String) =
      "\n            <div class=\"project-card\" " ++ "data-project-id=\"" := rfl
  have h1 : ("\">\n                <img src=\"" : String) =
      "\"" ++ ">\n                <img src=\"" := rfl
  unfold createProjectCard
  rw [h0, h1]
  simp only [strAppendAssoc]

/-- C8: rendering replaces the container's content (independently of its
previous value) with exactly one fragment per record, in list order, and
each fragment carries the record's id as the `data-project-id` attribute
and displays its image URL, title and description. -/
theorem c8_render_gallery (prev prev' : String) (projects : List ProjectCard) :
    renderProjects prev projects = String.join (projectFragments projects) ∧
    renderProjects prev projects = renderProjects prev' projects ∧
    (projectFragments projects).length = projects.length ∧
    (∀ i : Nat, (projectFragments projects)[i]? =
      (projects[i]?).map createProjectCard) ∧
    (∀ p : ProjectCard, ∃ a b, createProjectCard p =
      a ++ ("data-project-id=\"" ++ toString p.id ++ "\"") ++ b) ∧
    (∀ p : ProjectCard, ∃ a b, createProjectCard p = a ++ p.imageUrl ++ b) ∧
    (∀ p : ProjectCard, ∃ a b, createProjectCard p = a ++ p.title ++ b) ∧
    (∀ p : ProjectCard, ∃ a b, createProjectCard p = a ++ p.description ++ b) := by
  refine ⟨rfl, rfl, by simp [projectFragments], ?_, ?_, ?_, ?_, ?_⟩
  · intro i
    simp [projectFragments, List.getElem?_map]
  · intro p
    exact ⟨_, _, createProjectCard_attr p⟩
  · intro p
    refine ⟨"\n            <div class=\"project-card\" data-project-id=\"" ++
      toString p.id ++ "\">\n                <img src=\"",
      "\" alt=\"" ++ p.title ++
      "\">\n                <h3>" ++ p.title ++
      "</h3>\n                <p>" ++ p.description ++
      "</p>\n            </div>\n        ", ?_⟩
    simp only [createProjectCard, strAppendAssoc]
  · intro p
    refine ⟨"\n            <div class=\"project-card\" data-project-id=\"" ++
      toString p.id ++ "\">\n                <img src=\"" ++ p.imageUrl ++ "\" alt=\"",
      "\">\n                <h3>" ++ p.title ++
      "</h3>\n                <p>" ++ p.description ++
      "</p>\n            </div>\n        ", ?_⟩
    simp only [createProjectCard, strAppendAssoc]
  · intro p
    refine ⟨"\n            <div class=\"project-card\" data-project-id=\"" ++
      toString p.id ++ "\">\n                <img src=\"" ++ p.imageUrl ++
      "\" alt=\"" ++ p.title ++ "\">\n                <h3>" ++ p.title ++
      "</h3>\n                <p>", "</p>\n            </div>\n        ", ?_⟩
    simp only [createProjectCard, strAppendAssoc]

/-- C9: the shipped submission operation always resolves, so every
validated submission reaches the success path, and whenever a submission is
attempted at all the outcome is the success notice with the fields cleared
— the submission-failure branch is unreachable with the shipped
`submitForm`. -/
theorem c9_submit_never_fails (f : FormFields) :
    (validateForm (getFormData f) = none →
      handleSubmit f =
        ⟨true, some (.success "Message sent successfully!"), true, ⟨"", "", ""⟩⟩) ∧
    ((handleSubmit f).submitAttempted = true →
      (handleSubmit f).notice = some (.success "Message sent successfully!") ∧
      (handleSubmit f).fieldsAfter = ⟨"", "", ""⟩) := by
  unfold handleSubmit handleSubmitWith submitForm
  cases hv : validateForm (getFormData f) <;> simp [hv]

/-- C9 witness: the valid submission `("Jo", "a@b.com", "hi")` reaches the
success path. -/
theorem c9_submit_never_fails_witness :
    handleSubmit ⟨"Jo", "a@b.com", "hi"⟩ =
      ⟨true, some (.success "Message sent successfully!"), true, ⟨"", "", ""⟩⟩ :=
  (c9_submit_never_fails ⟨"Jo", "a@b.com", "hi"⟩).1 (by decide)

/-- C10: construction invokes `setTheme`, so the storage key is written at
startup (to the initial theme) before any toggle; after construction, and
after every toggle from a state satisfying it, the invariant holds that the
persisted value equals the in-memory theme and the dark class is present
iff that theme is dark. -/
theorem c10_theme_invariant (dc : Bool) (ic : String) (st : Option String) :
    (themeManagerInit dc ic st).2.stored = some (initialTheme st) ∧
    themeInv (themeManagerInit dc ic st) ∧
    (∀ s : String × ThemeObs, themeInv s → themeInv (handleThemeToggle s)) := by
  refine ⟨?_, ?_, ?_⟩
  · unfold themeManagerInit setTheme
    by_cases h : initialTheme st = "dark" <;> simp [h]
  · exact themeInv_setTheme _ _
  · intro s _
    exact themeInv_setTheme _ _

/-- C10 witness: after a toggle from the consistent light state, the
invariant still holds. -/
theorem c10_theme_invariant_witness :
    themeInv (handleThemeToggle ("light", ⟨false, "fa-moon", some "light"⟩)) :=
  (c10_theme_invariant false "fa-moon" (some "light")).2.2
    ("light", ⟨false, "fa-moon", some "light"⟩) ⟨rfl, by decide⟩

end Portfolio
